import Mathlib

set_option autoImplicit false

/-!
Shallow embedding of the modem-stats acquisition pipeline:
the bounded parallel fetcher (`utils/tools.go`), the superhub5
accumulator/normalizer (`ParseStats`, `FetchEventLog`), and the Loki
log shipper (`outputs/loki.go`).

Modelling conventions:
* Go byte slices, JSON documents and HTTP bodies are abstract type
  parameters (`Doc`, `Body`); the external library calls
  (`jsonpatch.MergeMergePatches`, `json.Unmarshal`, `io.ReadAll`,
  `http.Client.Get/Post`, `time.Parse`) are abstract function
  parameters, since they are not code of this repository.
* Go `int` fields are modelled as `Int` (values come from decoded JSON
  and stay far from the int64 boundary in every claim considered);
  Go `float32` JSON numbers are modelled as exact rationals `ℚ`, and the
  Go conversion `int(x)` as truncation toward zero.
* The completion order of the goroutines in `BoundedParallelGet` is an
  explicit `arrival : List Nat` parameter: the results channel delivers
  the per-request results in that order.
* `fmt.Errorf` wrapping of error values is dropped where the error type
  is abstract: the underlying error value is propagated unchanged.
-/

/-- Go `int(x)` conversion for a rational `x`: truncation toward zero. -/
def goInt (q : ℚ) : ℤ := q.num.tdiv q.den

/-- Longest run of decimal digits starting at the head of the list
(the tail of a regexp `[0-9]+` match). -/
def digitsTake : List Char → List Char
  | [] => []
  | c :: cs => if c.isDigit then c :: digitsTake cs else []

/-- Leftmost maximal run of decimal digits in a character list:
model of `regexp.MustCompile("[0-9]+").FindString`, which returns the
leftmost match, or the empty string when there is no match. -/
def digitsFind : List Char → List Char
  | [] => []
  | c :: cs => if c.isDigit then c :: digitsTake cs else digitsFind cs

/-- `modulationRegex.FindString` on a Go string. -/
def modulationFindString (s : String) : String := ⟨digitsFind s.data⟩

/-- `utils.ModemChannel` (part_000): fields absent from a Go composite
literal default to the Go zero value. -/
structure ModemChannel where
  channelID : Int := 0
  channel : Int := 0
  frequency : Int := 0
  snr : Int := 0
  power : Int := 0
  prerserr : Int := 0
  postrserr : Int := 0
  modulation : String := ""
  scheme : String := ""
  noise : Int := 0
  attenuation : Int := 0
  t1Timeout : Int := 0
  t2Timeout : Int := 0
  t3Timeout : Int := 0
  t4Timeout : Int := 0
  locked : Bool := false
  symbolRate : Int := 0
  deriving DecidableEq, Repr

/-- `utils.ModemConfig` (part_000). -/
structure ModemConfig where
  config : String := ""
  maxrate : Int := 0
  maxburst : Int := 0
  serviceFlowId : Int := 0
  deriving DecidableEq, Repr

/-- `utils.ModemStats` (part_000). -/
structure ModemStats where
  configs : List ModemConfig := []
  upChannels : List ModemChannel := []
  downChannels : List ModemChannel := []
  fetchTime : Int := 0
  modemType : String := ""
  deriving DecidableEq, Repr

/-- `utils.EventLogEntry` (part_000). -/
structure EventLogEntry where
  priority : String := ""
  timestamp : String := ""
  message : String := ""
  deriving DecidableEq, Repr

namespace superhub5

/-- superhub5 `dsChannel` (part_002): the decoded JSON fields of one raw
downstream channel entry.  `power` is the decoded JSON number, as an
exact rational. -/
structure dsChannel where
  id : Int := 0
  frequency : Int := 0
  power : ℚ := 0
  modulation : String := ""
  snr : Int := 0
  preRS : Int := 0
  postRS : Int := 0
  channelType : String := ""
  rxMer : Int := 0
  lockStatus : Bool := false
  deriving DecidableEq, Repr

/-- superhub5 `usChannel` (part_002). -/
structure usChannel where
  id : Int := 0
  frequency : Int := 0
  power : ℚ := 0
  modulation : String := ""
  channelType : String := ""
  lockStatus : Bool := false
  symbolRate : Int := 0
  t1Timeout : Int := 0
  t2Timeout : Int := 0
  t3Timeout : Int := 0
  t4Timeout : Int := 0
  deriving DecidableEq, Repr

/-- superhub5 `serviceFlow` (part_002), with the inner struct flattened. -/
structure serviceFlow where
  id : Int := 0
  direction : String := ""
  maxRate : Int := 0
  maxBurst : Int := 0
  deriving DecidableEq, Repr

/-- superhub5 `resultsStruct` (part_002), with the singleton wrapper
objects (`downstream.channels`, `upstream.channels`) flattened. -/
structure resultsStruct where
  downstreamChannels : List dsChannel := []
  upstreamChannels : List usChannel := []
  serviceFlows : List serviceFlow := []
  deriving DecidableEq, Repr

/-- Body of the downstream loop of `ParseStats` for the entry at raw
index `index`: `none` models the `continue` taken on an unrecognized
`channelType` (after printing a diagnostic). -/
def downChannel (index : Nat) (downstream : dsChannel) : Option ModemChannel :=
  let qamSize := modulationFindString downstream.modulation
  let powerInt := goInt (downstream.power * 10)
  let snr := downstream.snr * 10
  if downstream.channelType = "sc_qam" then
    some { channelID := downstream.id
           channel := (index : Int) + 1
           frequency := downstream.frequency
           snr := snr
           power := powerInt
           prerserr := downstream.preRS + downstream.postRS
           postrserr := downstream.postRS
           modulation := "QAM" ++ qamSize
           scheme := "SC-QAM"
           locked := downstream.lockStatus }
  else if downstream.channelType = "ofdm" then
    some { channelID := downstream.id
           channel := (index : Int) + 1
           frequency := downstream.frequency
           snr := downstream.rxMer
           power := goInt downstream.power
           prerserr := downstream.preRS + downstream.postRS
           postrserr := downstream.postRS
           modulation := "QAM" ++ qamSize
           scheme := "OFDM"
           locked := downstream.lockStatus }
  else
    none

/-- The downstream loop of `ParseStats`: iterate in document order with
the raw slice index, appending one channel per recognized entry. -/
def normDownstream (chans : List dsChannel) : List ModemChannel :=
  chans.enum.filterMap fun p => downChannel p.1 p.2

/-- Body of the upstream loop of `ParseStats` for the entry at raw index
`index`. -/
def upChannel (index : Nat) (upstream : usChannel) : Option ModemChannel :=
  let powerInt := goInt (upstream.power * 10)
  if upstream.channelType = "atdma" then
    some { channelID := upstream.id
           channel := (index : Int) + 1
           frequency := upstream.frequency
           power := powerInt
           scheme := "ATDMA"
           locked := upstream.lockStatus
           symbolRate := upstream.symbolRate
           t1Timeout := upstream.t1Timeout
           t2Timeout := upstream.t2Timeout
           t3Timeout := upstream.t3Timeout
           t4Timeout := upstream.t4Timeout }
  else if upstream.channelType = "ofdma" then
    some { channelID := upstream.id
           channel := (index : Int) + 1
           frequency := upstream.frequency
           power := goInt upstream.power
           scheme := "OFDMA"
           locked := upstream.lockStatus
           symbolRate := upstream.symbolRate
           t1Timeout := upstream.t1Timeout
           t2Timeout := upstream.t2Timeout
           t3Timeout := upstream.t3Timeout
           t4Timeout := upstream.t4Timeout }
  else
    none

/-- The upstream loop of `ParseStats`. -/
def normUpstream (chans : List usChannel) : List ModemChannel :=
  chans.enum.filterMap fun p => upChannel p.1 p.2

/-- The service-flow loop of `ParseStats`. -/
def mkConfig (modemConfig : serviceFlow) : ModemConfig :=
  { config := modemConfig.direction
    maxrate := modemConfig.maxRate
    maxburst := modemConfig.maxBurst
    serviceFlowId := modemConfig.id }

/-- The pure normalization stage of `ParseStats`: decoded document to
canonical snapshot (part_002 lines 132-208). -/
def normalize (results : resultsStruct) (fetchTime : Int) : ModemStats :=
  { configs := results.serviceFlows.map mkConfig
    upChannels := normUpstream results.upstreamChannels
    downChannels := normDownstream results.downstreamChannels
    fetchTime := fetchTime }

end superhub5

/-- An HTTP response as the pipeline observes it: status code plus an
unread body (`Body` abstract). -/
structure HttpResp (Body : Type) where
  statusCode : Int
  body : Body
  deriving DecidableEq, Repr

/-- `utils.HttpResult`: a per-request outcome tagged with the original
request index.  `http.Client.Get` returns a usable response exactly when
its error is nil, so the `(Res, Err)` pair collapses to an `Except`. -/
structure HttpResult (Body E : Type) where
  index : Nat
  out : Except E (HttpResp Body)
  deriving Repr

/-- `utils.BoundedParallelGet`: each request `i` runs `get` on `urls[i]`;
the fan-in loop receives the results in completion order, modelled by
the index list `arrival` (a permutation of `0..urls.length-1` stating
which request's result arrives next), and appends them in that order.
The semaphore bounds how many run at once but does not change the
returned value beyond `arrival`. -/
def boundedParallelGet {Body E : Type} (urls : List String)
    (get : String → Except E (HttpResp Body)) (arrival : List Nat) :
    List (HttpResult Body E) :=
  arrival.filterMap fun i => (urls.get? i).map fun url => ⟨i, get url⟩

namespace superhub5

/-- superhub5 `Modem` (part_002): `Stats []byte` is `nil` ⇔ `none`. -/
structure Modem (Doc : Type) where
  ipAddress : String := ""
  stats : Option Doc := none
  fetchTime : Int := 0
  deriving Repr

/-- `Modem.ClearStats`. -/
def clearStats {Doc : Type} (sh5 : Modem Doc) : Modem Doc :=
  { sh5 with stats := none }

/-- `Modem.apiAddress`: defaults and records the IP address when unset,
then formats the base URL.  Returns the url together with the (possibly
updated) modem state. -/
def apiAddress {Doc : Type} (sh5 : Modem Doc) : String × Modem Doc :=
  let sh5 := if sh5.ipAddress = "" then { sh5 with ipAddress := "192.168.100.1" } else sh5
  ("https://" ++ sh5.ipAddress ++ "/rest/v1/cablemodem", sh5)

/-- The three stats sub-resource URLs `ParseStats` fetches. -/
def parseStatsQueries {Doc : Type} (sh5 : Modem Doc) : List String :=
  [(apiAddress sh5).1 ++ "/downstream",
   (apiAddress sh5).1 ++ "/upstream",
   (apiAddress sh5).1 ++ "/serviceflows"]

/-- The fetch-result loop of `ParseStats` (part_002 lines 106-120),
threading `sh5.Stats` as the accumulator.  Returns the final value of
`sh5.Stats` and the error aborting the loop, if any:
* a fetch error or a body-read (`io.ReadAll`) error returns before the
  merge assignment, leaving the accumulator as it was;
* `sh5.Stats, err = jsonpatch.MergeMergePatches(...)` assigns the
  library's returned document even on failure, which is `nil` — so a
  merge error leaves the cache `nil`.
`merge` models `jsonpatch.MergeMergePatches` and `readAll` models
`io.ReadAll` on a response body. -/
def accumulate {Doc Body E : Type} (merge : Doc → Doc → Except E Doc)
    (readAll : Body → Except E Doc) :
    Doc → List (HttpResult Body E) → Option Doc × Option E
  | acc, [] => (some acc, none)
  | acc, query :: rest =>
    match query.out with
    | .error e => (some acc, some e)
    | .ok res =>
      match readAll res.body with
      | .error e => (some acc, some e)
      | .ok stats =>
        match merge acc stats with
        | .error e => (none, some e)
        | .ok merged => accumulate merge readAll merged rest

/-- The tail of `ParseStats` (part_002 lines 123-208): decode the cached
raw document (`json.Unmarshal`, modelled by `decode`, applied to the
possibly-nil byte slice) and normalize it; the snapshot's `FetchTime` is
copied from the modem state. -/
def finishNormalize {Doc E : Type} (decode : Option Doc → Except E resultsStruct)
    (sh5 : Modem Doc) : Except E ModemStats :=
  match decode sh5.stats with
  | .error e => .error e
  | .ok results => .ok (normalize results sh5.fetchTime)

/-- superhub5 `Modem.ParseStats`.  Parameters model the collaborators:
`emptyDoc` the literal `[]byte("{}")`, `merge`/`readAll`/`decode` the
external library calls, `get` the HTTP client, `arrival` the completion
order of the three fetches, `elapsed` the measured wall-clock fetch
duration.  Returns the Go result, the modem state after the call, and
whether a network fetch set was issued. -/
def parseStats {Doc Body E : Type} (emptyDoc : Doc)
    (merge : Doc → Doc → Except E Doc) (readAll : Body → Except E Doc)
    (decode : Option Doc → Except E resultsStruct)
    (get : String → Except E (HttpResp Body)) (arrival : List Nat)
    (elapsed : Int) (sh5 : Modem Doc) :
    Except E ModemStats × Modem Doc × Bool :=
  match sh5.stats with
  | some _ => (finishNormalize decode sh5, sh5, false)
  | none =>
    let sh5a := (apiAddress sh5).2
    let statsData := boundedParallelGet (parseStatsQueries sh5) get arrival
    match accumulate merge readAll emptyDoc statsData with
    | (newStats, some e) =>
      (.error e, { sh5a with stats := newStats, fetchTime := elapsed }, true)
    | (newStats, none) =>
      let sh5b := { sh5a with stats := newStats, fetchTime := elapsed }
      (finishNormalize decode sh5b, sh5b, true)

/-- superhub5 raw `eventLogEntry` (part_002). -/
structure eventLogEntry where
  priority : String := ""
  time : String := ""
  message : String := ""
  deriving DecidableEq, Repr

/-- superhub5 `Modem.FetchEventLog`: GET the eventlog resource, read the
body, decode it, and map the raw entries to `utils.EventLogEntry`.  The
response status code is never inspected.  `decodeLog` models
`json.Unmarshal` into `eventLogResponse`. -/
def fetchEventLog {Doc Body E : Type} (readAll : Body → Except E Doc)
    (decodeLog : Doc → Except E (List eventLogEntry))
    (getOutcome : Except E (HttpResp Body)) :
    Except E (List EventLogEntry) :=
  match getOutcome with
  | .error e => .error e
  | .ok res =>
    match readAll res.body with
    | .error e => .error e
    | .ok body =>
      match decodeLog body with
      | .error e => .error e
      | .ok entries =>
        .ok (entries.map fun e =>
          { priority := e.priority, timestamp := e.time, message := e.message })

end superhub5

namespace outputs

/-- `outputs.lokiStream`: a label set plus `[timestamp, message]` value
pairs.  Go map iteration order over the labels is irrelevant to the
claims; labels are an association list with map update semantics. -/
structure lokiStream where
  stream : List (String × String) := []
  values : List (String × String) := []
  deriving DecidableEq, Repr

/-- `outputs.lokiPushRequest`. -/
structure lokiPushRequest where
  streams : List lokiStream := []
  deriving DecidableEq, Repr

/-- `LokiExporter.logKey`: `fmt.Sprintf("%s|%s|%s", Timestamp, Priority,
Message)`. -/
def logKey (entry : EventLogEntry) : String :=
  entry.timestamp ++ "|" ++ entry.priority ++ "|" ++ entry.message

/-- The filter step of `PushLogs` (loki.go lines 67-75): keep the
entries whose identity key is not in the seen set.  The
`map[string]bool` seen set is modelled as the list of keys stored true. -/
def filterNew (seen : List String) (entries : List EventLogEntry) :
    List EventLogEntry :=
  entries.filter fun entry => !(seen.contains (logKey entry))

/-- The nanosecond timestamp string of one entry (loki.go lines 84-91):
`time.Parse(time.RFC3339, ...)` then `UnixNano`, modelled by `parse`;
on parse failure the entry is stamped with the shipping time `now`
(`time.Now()` at the point of grouping).  `fmt.Sprintf("%d", ·)` is
decimal `toString`. -/
def tsNano (parse : String → Option Int) (now : Int) (entry : EventLogEntry) :
    String :=
  match parse entry.timestamp with
  | some ns => toString ns
  | none => toString now

/-- Append one value pair to the stream of priority `p`, creating the
stream on first appearance (the `streams[entry.Priority] = append(...)`
map update, with map iteration order fixed to first-appearance order). -/
def streamAdd (streams : List (String × List (String × String)))
    (p : String) (v : String × String) :
    List (String × List (String × String)) :=
  match streams with
  | [] => [(p, [v])]
  | (q, vs) :: rest =>
    if q = p then (q, vs ++ [v]) :: rest else (q, vs) :: streamAdd rest p v

/-- The grouping loop of `PushLogs` (loki.go lines 82-93): group the new
entries by priority, each valued by its `[tsNano, message]` pair. -/
def buildStreams (parse : String → Option Int) (now : Int)
    (newEntries : List EventLogEntry) :
    List (String × List (String × String)) :=
  newEntries.foldl
    (fun streams entry =>
      streamAdd streams entry.priority (tsNano parse now entry, entry.message))
    []

/-- Map update `labels[k] = v` on an association list. -/
def setLabel (labels : List (String × String)) (k v : String) :
    List (String × String) :=
  match labels with
  | [] => [(k, v)]
  | (k', v') :: rest =>
    if k' = k then (k', v) :: rest else (k', v') :: setLabel rest k v

/-- Go's byte-wise string comparison `a < b` on character lists: UTF-8
byte order coincides with code-point order, so comparing code points is
the same relation. -/
def charListLt : List Char → List Char → Bool
  | [], [] => false
  | [], _ :: _ => true
  | _ :: _, [] => false
  | a :: as, b :: bs =>
    if a.val < b.val then true
    else if b.val < a.val then false
    else charListLt as bs

/-- Go's string `<`. -/
def goStringLt (a b : String) : Bool := charListLt a.data b.data

/-- One insertion step of the sort of a stream's values.  The
comparator is Go's
`sort.Slice(values, func(i, j) ... values[i][0] < values[j][0] ...)`:
byte-wise comparison of the decimal timestamp strings; any sort with
that comparator yields a list ordered by it on the first component,
which insertion sort produces. -/
def insertVal (v : String × String) :
    List (String × String) → List (String × String)
  | [] => [v]
  | w :: ws => if goStringLt v.1 w.1 then v :: w :: ws else w :: insertVal v ws

/-- The per-stream value sort of `PushLogs` (loki.go lines 105-107). -/
def sortValues : List (String × String) → List (String × String)
  | [] => []
  | v :: vs => insertVal v (sortValues vs)

/-- Build one `lokiStream` (loki.go lines 96-112): copy the base labels,
set `level` to the priority, and sort the values. -/
def mkStream (baseLabels : List (String × String)) (p : String)
    (vs : List (String × String)) : lokiStream :=
  { stream := setLabel baseLabels "level" p, values := sortValues vs }

/-- `LokiExporter.PushLogs`.  `fetched` is the outcome of
`logProvider.FetchEventLog()`; `pushOutcome` the outcome of the HTTP
POST to the sink (transport error, or response status code).  Returns
the Go result, the seen set after the call, and the request POSTed to
the sink, if the cycle reached the POST. -/
def pushLogs (parse : String → Option Int) (now : Int)
    (fetched : Except String (List EventLogEntry))
    (pushOutcome : Except String Int)
    (baseLabels : List (String × String)) (seen : List String) :
    Except String Unit × List String × Option lokiPushRequest :=
  match fetched with
  | .error e => (.error ("failed to fetch event log: " ++ e), seen, none)
  | .ok entries =>
    let newEntries := filterNew seen entries
    if newEntries = [] then (.ok (), seen, none)
    else
      let req : lokiPushRequest :=
        { streams := (buildStreams parse now newEntries).map fun s =>
            mkStream baseLabels s.1 s.2 }
      match pushOutcome with
      | .error e => (.error ("failed to push to loki: " ++ e), seen, some req)
      | .ok status =>
        if status < 200 ∨ 300 ≤ status then
          (.error ("loki returned status " ++ toString status), seen, some req)
        else
          (.ok (), seen ++ newEntries.map logKey, some req)

/-- Total number of value pairs carried by a push request. -/
def totalValues (req : lokiPushRequest) : Nat :=
  (req.streams.map fun s => s.values.length).sum

end outputs

namespace superhub5

/-- A raw downstream entry is recognized iff its technology tag is one
of the two handled schemes. -/
def dsRecognized (d : dsChannel) : Bool :=
  d.channelType = "sc_qam" ∨ d.channelType = "ofdm"

/-- A raw upstream entry is recognized iff its technology tag is one of
the two handled schemes. -/
def usRecognized (u : usChannel) : Bool :=
  u.channelType = "atdma" ∨ u.channelType = "ofdma"

theorem downChannel_eq_none (i : Nat) (d : dsChannel) :
    downChannel i d = none ↔ dsRecognized d = false := by
  unfold downChannel dsRecognized
  split_ifs with h1 h2 <;> simp_all

theorem downChannel_channel (i : Nat) (d : dsChannel) (c : ModemChannel)
    (h : downChannel i d = some c) : c.channel = (i : Int) + 1 := by
  unfold downChannel at h
  split_ifs at h <;> (injection h with h; subst h; rfl)

theorem upChannel_eq_none (i : Nat) (u : usChannel) :
    upChannel i u = none ↔ usRecognized u = false := by
  unfold upChannel usRecognized
  split_ifs with h1 h2 <;> simp_all

theorem upChannel_channel (i : Nat) (u : usChannel) (c : ModemChannel)
    (h : upChannel i u = some c) : c.channel = (i : Int) + 1 := by
  unfold upChannel at h
  split_ifs at h <;> (injection h with h; subst h; rfl)

theorem normDownstream_length_aux (chans : List dsChannel) : ∀ n : Nat,
    ((chans.enumFrom n).filterMap fun p => downChannel p.1 p.2).length
      = chans.countP dsRecognized := by
  induction chans with
  | nil => intro n; rfl
  | cons d rest ih =>
    intro n
    simp only [List.enumFrom, List.filterMap_cons, List.countP_cons]
    cases hd : downChannel n d with
    | none =>
      have : dsRecognized d = false := (downChannel_eq_none n d).mp hd
      simp [ih (n + 1), this]
    | some c =>
      have : ¬ dsRecognized d = false := by
        intro hfalse
        rw [(downChannel_eq_none n d).mpr hfalse] at hd
        exact Option.noConfusion hd
      simp [ih (n + 1), Bool.eq_false_iff.not_left.mp this]

theorem normUpstream_length_aux (chans : List usChannel) : ∀ n : Nat,
    ((chans.enumFrom n).filterMap fun p => upChannel p.1 p.2).length
      = chans.countP usRecognized := by
  induction chans with
  | nil => intro n; rfl
  | cons u rest ih =>
    intro n
    simp only [List.enumFrom, List.filterMap_cons, List.countP_cons]
    cases hu : upChannel n u with
    | none =>
      have : usRecognized u = false := (upChannel_eq_none n u).mp hu
      simp [ih (n + 1), this]
    | some c =>
      have : ¬ usRecognized u = false := by
        intro hfalse
        rw [(upChannel_eq_none n u).mpr hfalse] at hu
        exact Option.noConfusion hu
      simp [ih (n + 1), Bool.eq_false_iff.not_left.mp this]

/-- A downstream entry with an unrecognized technology tag. -/
def badDs : dsChannel := { channelType := "unknown" }

/-- A well-formed SC-QAM downstream entry. -/
def goodDs : dsChannel :=
  { id := 7, channelType := "sc_qam", power := 2.1, snr := 41,
    modulation := "qam256" }

/-- C3 counterexample: with an unrecognized entry followed by a
recognized one, the single emitted Channel carries ordinal 2 (its raw
document position + 1), not 1 as the claim's after-skips rule would
require — the skipped entry does consume an ordinal slot. -/
theorem c3_counterexample :
    (normDownstream [badDs, goodDs]).map (fun c => c.channel) = [2]
    ∧ (normDownstream [badDs, goodDs]).map (fun c => c.channel) ≠ [1] := by
  constructor <;> decide

/-- C3 (amended): an unrecognized downstream or upstream entry produces
no Channel and does not fail the document (the emitted count is the
count of recognized entries), but each emitted Channel's ordinal is
1 + its raw document position — skipped entries still consume their
ordinal slot. -/
theorem c3_channel_ordinal_is_raw_index (chansD : List dsChannel)
    (chansU : List usChannel) :
    (normDownstream chansD).length = chansD.countP dsRecognized
    ∧ (∀ c ∈ normDownstream chansD, ∃ p ∈ chansD.enum,
        dsRecognized p.2 = true ∧ downChannel p.1 p.2 = some c
          ∧ c.channel = (p.1 : Int) + 1)
    ∧ (normUpstream chansU).length = chansU.countP usRecognized
    ∧ (∀ c ∈ normUpstream chansU, ∃ p ∈ chansU.enum,
        usRecognized p.2 = true ∧ upChannel p.1 p.2 = some c
          ∧ c.channel = (p.1 : Int) + 1) := by
  refine ⟨?_, ?_, ?_, ?_⟩
  · simpa [normDownstream, List.enum] using normDownstream_length_aux chansD 0
  · intro c hc
    obtain ⟨p, hp, hfc⟩ := List.mem_filterMap.mp hc
    refine ⟨p, hp, ?_, hfc, downChannel_channel p.1 p.2 c hfc⟩
    cases hrec : dsRecognized p.2 with
    | true => rfl
    | false =>
      rw [(downChannel_eq_none p.1 p.2).mpr hrec] at hfc
      exact Option.noConfusion hfc
  · simpa [normUpstream, List.enum] using normUpstream_length_aux chansU 0
  · intro c hc
    obtain ⟨p, hp, hfc⟩ := List.mem_filterMap.mp hc
    refine ⟨p, hp, ?_, hfc, upChannel_channel p.1 p.2 c hfc⟩
    cases hrec : usRecognized p.2 with
    | true => rfl
    | false =>
      rw [(upChannel_eq_none p.1 p.2).mpr hrec] at hfc
      exact Option.noConfusion hfc

/-- C3 witness: the amended theorem evaluated on a concrete document
with one unrecognized and one recognized downstream entry. -/
theorem c3_channel_ordinal_is_raw_index_witness :
    (normDownstream [badDs, goodDs]).length
        = ([badDs, goodDs].countP dsRecognized)
    ∧ (normUpstream []).length = (([] : List usChannel).countP usRecognized) := by
  have h := c3_channel_ordinal_is_raw_index [badDs, goodDs] []
  exact ⟨h.1, h.2.2.1⟩

/-- C6: for an `sc_qam` downstream entry the normalizer emits the
scaled channel record — power `int(raw * 10)`, SNR `raw * 10`, pre-RS
errors `corrected + uncorrected`, post-RS errors `uncorrected`,
modulation `"QAM"` plus the numeric run of the raw modulation string,
scheme `"SC-QAM"`; in particular raw power 2.1 yields 21 and raw SNR 41
yields 410. -/
theorem c6_sc_qam_normalization (i : Nat) (d : dsChannel)
    (h : d.channelType = "sc_qam") :
    downChannel i d = some
      { channelID := d.id, channel := (i : Int) + 1,
        frequency := d.frequency, snr := d.snr * 10,
        power := goInt (d.power * 10),
        prerserr := d.preRS + d.postRS, postrserr := d.postRS,
        modulation := "QAM" ++ modulationFindString d.modulation,
        scheme := "SC-QAM", locked := d.lockStatus }
    ∧ goInt ((2.1 : ℚ) * 10) = 21 ∧ (41 : Int) * 10 = 410 := by
  refine ⟨?_, by norm_num [goInt], by norm_num⟩
  simp [downChannel, h]

/-- C6 witness: the theorem applied to the concrete entry with raw
power 2.1 and raw SNR 41. -/
theorem c6_sc_qam_normalization_witness :
    downChannel 0 goodDs = some
      { channelID := goodDs.id, channel := (0 : Int) + 1,
        frequency := goodDs.frequency, snr := goodDs.snr * 10,
        power := goInt (goodDs.power * 10),
        prerserr := goodDs.preRS + goodDs.postRS,
        postrserr := goodDs.postRS,
        modulation := "QAM" ++ modulationFindString goodDs.modulation,
        scheme := "SC-QAM", locked := goodDs.lockStatus }
    ∧ goInt ((2.1 : ℚ) * 10) = 21 ∧ (41 : Int) * 10 = 410 :=
  c6_sc_qam_normalization 0 goodDs rfl

end superhub5

theorem bpg_map_index {Body E : Type} (urls : List String)
    (get : String → Except E (HttpResp Body)) (arrival : List Nat)
    (h : ∀ i ∈ arrival, i < urls.length) :
    (boundedParallelGet urls get arrival).map (fun r => r.index) = arrival := by
  induction arrival with
  | nil => rfl
  | cons i rest ih =>
    have hi : i < urls.length := h i (List.mem_cons_self i rest)
    obtain ⟨url, hurl⟩ : ∃ u, urls.get? i = some u :=
      ⟨urls.get ⟨i, hi⟩, List.get?_eq_get hi⟩
    have hrest := ih fun j hj => h j (List.mem_cons_of_mem i hj)
    simp only [boundedParallelGet, List.filterMap_cons] at hrest ⊢
    rw [hurl]
    simpa using hrest

theorem bpg_out {Body E : Type} (urls : List String)
    (get : String → Except E (HttpResp Body)) (arrival : List Nat)
    (h : ∀ i ∈ arrival, i < urls.length) :
    ∀ r ∈ boundedParallelGet urls get arrival,
      ∃ url, urls.get? r.index = some url ∧ r.out = get url := by
  induction arrival with
  | nil => intro r hr; exact absurd hr (by simp [boundedParallelGet])
  | cons i rest ih =>
    intro r hr
    have hi : i < urls.length := h i (List.mem_cons_self i rest)
    obtain ⟨url, hurl⟩ : ∃ u, urls.get? i = some u :=
      ⟨urls.get ⟨i, hi⟩, List.get?_eq_get hi⟩
    simp only [boundedParallelGet, List.filterMap_cons, hurl, Option.map_some] at hr
    rcases List.mem_cons.mp hr with hEq | hMem
    · exact ⟨url, by rw [hEq]; exact hurl, by rw [hEq]⟩
    · exact ih (fun j hj => h j (List.mem_cons_of_mem i hj)) r hMem

/-- C9: under any completion order (a permutation of the request
indices), `BoundedParallelGet` returns exactly N results, each tagged
with its original request index, every index 0..N-1 present exactly
once, and each result carries exactly the outcome (response or error)
of the request at its index — no result is dropped and all requests are
accounted for before the call returns. -/
theorem c9_fetcher_complete {Body E : Type} (urls : List String)
    (get : String → Except E (HttpResp Body)) (arrival : List Nat)
    (hperm : arrival.Perm (List.range urls.length)) :
    (boundedParallelGet urls get arrival).length = urls.length
    ∧ ((boundedParallelGet urls get arrival).map (fun r => r.index)).Perm
        (List.range urls.length)
    ∧ ∀ r ∈ boundedParallelGet urls get arrival,
        ∃ url, urls.get? r.index = some url ∧ r.out = get url := by
  have hmem : ∀ i ∈ arrival, i < urls.length := fun i hi =>
    List.mem_range.mp (hperm.mem_iff.mp hi)
  have hmap := bpg_map_index urls get arrival hmem
  refine ⟨?_, ?_, bpg_out urls get arrival hmem⟩
  · have hlen := congrArg List.length hmap
    simpa [hperm.length_eq, List.length_range] using hlen
  · rw [hmap]; exact hperm

/-- A concrete always-succeeding HTTP getter. -/
def g9 : String → Except String (HttpResp String) := fun s => .ok ⟨200, s⟩

/-- C9 witness: two requests completing in reversed order still yield
two results whose indices are a permutation of 0..1. -/
theorem c9_fetcher_complete_witness :
    (boundedParallelGet ["u0", "u1"] g9 [1, 0]).length = 2
    ∧ ((boundedParallelGet ["u0", "u1"] g9 [1, 0]).map (fun r => r.index)).Perm
        (List.range 2) := by
  have h := c9_fetcher_complete ["u0", "u1"] g9 [1, 0] (by decide)
  exact ⟨h.1, h.2.1⟩

namespace superhub5

theorem accumulate_ok_append {Doc Body E : Type}
    (merge : Doc → Doc → Except E Doc) (readAll : Body → Except E Doc)
    (l₁ l₂ : List (HttpResult Body E)) (d d' : Doc)
    (h : accumulate merge readAll d l₁ = (some d', none)) :
    accumulate merge readAll d (l₁ ++ l₂) = accumulate merge readAll d' l₂ := by
  induction l₁ generalizing d with
  | nil =>
    simp only [accumulate, Prod.mk.injEq, Option.some.injEq] at h
    rw [List.nil_append, h.1]
  | cons q rest ih =>
    cases hq : q.out with
    | error e => simp [accumulate, hq] at h
    | ok res =>
      cases hr : readAll res.body with
      | error e => simp [accumulate, hq, hr] at h
      | ok stats =>
        cases hmrg : merge d stats with
        | error e => simp [accumulate, hq, hr, hmrg] at h
        | ok merged =>
          simp only [accumulate, hq, hr, hmrg] at h
          simpa [accumulate, hq, hr, hmrg] using ih merged h

theorem accumulate_isSome {Doc Body E : Type}
    (merge : Doc → Doc → Except E Doc) (readAll : Body → Except E Doc)
    (hmerge : ∀ a b, ∃ c, merge a b = Except.ok c) :
    ∀ (l : List (HttpResult Body E)) (d : Doc),
      (accumulate merge readAll d l).1.isSome = true := by
  intro l
  induction l with
  | nil => intro d; rfl
  | cons q rest ih =>
    intro d
    cases hq : q.out with
    | error e => simp [accumulate, hq]
    | ok res =>
      cases hr : readAll res.body with
      | error e => simp [accumulate, hq, hr]
      | ok stats =>
        obtain ⟨c, hc⟩ := hmerge d stats
        simp [accumulate, hq, hr, hc, ih c]

/-- Merge as byte-concatenation: a total stand-in for the merge-patch
library in concrete runs. -/
def mergeConcat : String → String → Except String String :=
  fun a b => .ok (a ++ b)

/-- A body read that always succeeds with the body itself. -/
def readAllOk : String → Except String String := fun b => .ok b

/-- A decoder accepting any document as the empty results struct. -/
def decodeEmpty : Option String → Except String resultsStruct :=
  fun _ => .ok {}

/-- An HTTP getter failing every request with the same transport error. -/
def getBoom : String → Except String (HttpResp String) :=
  fun _ => .error "boom"

/-- A getter failing the downstream sub-resource with `errA`, the
upstream sub-resource with `errB`, and succeeding otherwise. -/
def getAB : String → Except String (HttpResp String) := fun url =>
  if url = "https://192.168.100.1/rest/v1/cablemodem/downstream" then
    .error "errA"
  else if url = "https://192.168.100.1/rest/v1/cablemodem/upstream" then
    .error "errB"
  else .ok ⟨200, "{}"⟩

/-- A fresh modem state: no cached document. -/
def m0 : Modem String := {}

/-- C1 counterexample: after a failing accumulation the cached raw
document is `some "{}"` — not unset — and the next `ParseStats` call
issues no fetch, contradicting the claim's retry-from-scratch clause. -/
theorem c1_counterexample :
    (parseStats "{}" mergeConcat readAllOk decodeEmpty getBoom [0, 1, 2] 5 m0).1
      = .error "boom"
    ∧ (parseStats "{}" mergeConcat readAllOk decodeEmpty getBoom [0, 1, 2] 5
        m0).2.1.stats = some "{}"
    ∧ (parseStats "{}" mergeConcat readAllOk decodeEmpty getBoom [0, 1, 2] 5
        m0).2.1.stats ≠ none
    ∧ (parseStats "{}" mergeConcat readAllOk decodeEmpty getBoom [0, 1, 2] 5
        (parseStats "{}" mergeConcat readAllOk decodeEmpty getBoom [0, 1, 2] 5
          m0).2.1).2.2 = false := by
  have h2 : (parseStats "{}" mergeConcat readAllOk decodeEmpty getBoom
      [0, 1, 2] 5 m0).2.1.stats = some "{}" := rfl
  exact ⟨rfl, h2, by rw [h2]; simp, rfl⟩

/-- C1 (amended): any fetch, body-read or merge error aborts the whole
accumulation and is surfaced, but the cached raw document is left as
the accumulation's output — which, whenever merge-patching itself
succeeds, is a set (non-nil) document — so the next `ParseStats` call
does not re-issue the fetch set. -/
theorem c1_error_surfaced_cache_kept {Doc Body E : Type} (emptyDoc : Doc)
    (merge : Doc → Doc → Except E Doc) (readAll : Body → Except E Doc)
    (decode : Option Doc → Except E resultsStruct)
    (get : String → Except E (HttpResp Body)) (arrival : List Nat)
    (elapsed : Int) (sh5 : Modem Doc) (s : Option Doc) (e : E)
    (hmerge : ∀ a b, ∃ c, merge a b = Except.ok c)
    (hm : sh5.stats = none)
    (hacc : accumulate merge readAll emptyDoc
        (boundedParallelGet (parseStatsQueries sh5) get arrival) = (s, some e)) :
    parseStats emptyDoc merge readAll decode get arrival elapsed sh5
      = (.error e, { (apiAddress sh5).2 with stats := s, fetchTime := elapsed },
         true)
    ∧ s.isSome = true
    ∧ ∀ (emptyDoc' : Doc) (get' : String → Except E (HttpResp Body))
        (arrival' : List Nat) (elapsed' : Int),
        (parseStats emptyDoc' merge readAll decode get' arrival' elapsed'
          { (apiAddress sh5).2 with stats := s, fetchTime := elapsed }).2.2
          = false := by
  have hs : s.isSome = true := by
    have h := accumulate_isSome merge readAll hmerge
      (boundedParallelGet (parseStatsQueries sh5) get arrival) emptyDoc
    rw [hacc] at h
    exact h
  refine ⟨?_, hs, ?_⟩
  · simp [parseStats, hm, hacc]
  · intro emptyDoc' get' arrival' elapsed'
    obtain ⟨d, hd⟩ := Option.isSome_iff_exists.mp hs
    simp [parseStats, hd]

/-- C1 witness: the amended theorem on a concrete all-failing fetch
set. -/
theorem c1_error_surfaced_cache_kept_witness :
    parseStats "{}" mergeConcat readAllOk decodeEmpty getBoom [0, 1, 2] 5 m0
      = (.error "boom",
         { (apiAddress m0).2 with stats := some "{}", fetchTime := 5 }, true)
    ∧ (some "{}" : Option String).isSome = true := by
  have h := c1_error_surfaced_cache_kept "{}" mergeConcat readAllOk decodeEmpty
    getBoom [0, 1, 2] 5 m0 (some "{}") "boom"
    (fun a b => ⟨a ++ b, rfl⟩) rfl rfl
  exact ⟨h.1, h.2.1⟩

/-- C2 counterexample: with the downstream request (index 0) failing
with `errA`, the upstream request (index 1) failing with `errB`, and
the upstream result arriving first, `ParseStats` surfaces `errB` — the
error of the first failure in completion order, not the error of the
first failing request index. -/
theorem c2_counterexample :
    (parseStats "{}" mergeConcat readAllOk decodeEmpty getAB [1, 0, 2] 5 m0).1
      = .error "errB"
    ∧ (parseStatsQueries m0).get? 0
        = some "https://192.168.100.1/rest/v1/cablemodem/downstream"
    ∧ getAB "https://192.168.100.1/rest/v1/cablemodem/downstream"
        = .error "errA"
    ∧ "errB" ≠ "errA" := by
  exact ⟨rfl, rfl, rfl, by simp⟩

/-- C2 (amended): the accumulator inspects fetch results in the order
the fetcher returned them — completion (arrival) order — and surfaces
the error of the first failing result in that order, whatever its
request index; a later request that fails quickly can therefore mask an
earlier failure. -/
theorem c2_first_arrival_error_surfaced {Doc Body E : Type} (emptyDoc : Doc)
    (merge : Doc → Doc → Except E Doc) (readAll : Body → Except E Doc)
    (decode : Option Doc → Except E resultsStruct)
    (get : String → Except E (HttpResp Body)) (arrival : List Nat)
    (elapsed : Int) (sh5 : Modem Doc) (l₁ l₂ : List (HttpResult Body E))
    (q : HttpResult Body E) (d : Doc) (e : E)
    (hm : sh5.stats = none)
    (hsplit : boundedParallelGet (parseStatsQueries sh5) get arrival
        = l₁ ++ q :: l₂)
    (hok : accumulate merge readAll emptyDoc l₁ = (some d, none))
    (herr : q.out = .error e) :
    (parseStats emptyDoc merge readAll decode get arrival elapsed sh5).1
      = .error e := by
  have hacc : accumulate merge readAll emptyDoc
      (boundedParallelGet (parseStatsQueries sh5) get arrival)
      = (some d, some e) := by
    rw [hsplit, accumulate_ok_append merge readAll l₁ (q :: l₂) emptyDoc d hok]
    simp [accumulate, herr]
  simp [parseStats, hm, hacc]

/-- C2 witness: the amended theorem on the concrete completion order
`[1, 0, 2]`. -/
theorem c2_first_arrival_error_surfaced_witness :
    (parseStats "{}" mergeConcat readAllOk decodeEmpty getAB [1, 0, 2] 5 m0).1
      = .error "errB" :=
  c2_first_arrival_error_surfaced "{}" mergeConcat readAllOk decodeEmpty getAB
    [1, 0, 2] 5 m0 []
    [⟨0, .error "errA"⟩, ⟨2, .ok ⟨200, "{}"⟩⟩] ⟨1, .error "errB"⟩ "{}" "errB"
    rfl rfl rfl rfl

/-- C10: when a cached raw document is present, `ParseStats` issues no
fetch, leaves the modem state (Stats, FetchTime) unchanged, and its
result is the pure normalization of the cached document — so repeated
calls between invalidations, with arbitrary fetch-side collaborators,
return identical snapshots. -/
theorem c10_cached_no_refetch {Doc Body E : Type} (emptyDoc : Doc)
    (merge : Doc → Doc → Except E Doc) (readAll : Body → Except E Doc)
    (decode : Option Doc → Except E resultsStruct)
    (get : String → Except E (HttpResp Body)) (arrival : List Nat)
    (elapsed : Int) (sh5 : Modem Doc) (d : Doc)
    (h : sh5.stats = some d) :
    parseStats emptyDoc merge readAll decode get arrival elapsed sh5
      = (finishNormalize decode sh5, sh5, false)
    ∧ ∀ (emptyDoc' : Doc) (merge' : Doc → Doc → Except E Doc)
        (readAll' : Body → Except E Doc)
        (get' : String → Except E (HttpResp Body)) (arrival' : List Nat)
        (elapsed' : Int),
        parseStats emptyDoc' merge' readAll' decode get' arrival' elapsed' sh5
          = parseStats emptyDoc merge readAll decode get arrival elapsed sh5 := by
  constructor
  · simp [parseStats, h]
  · intro emptyDoc' merge' readAll' get' arrival' elapsed'
    simp [parseStats, h]

/-- A modem state holding a cached raw document. -/
def m10 : Modem String := { stats := some "{}" }

/-- C10 witness: the theorem on a concrete cached state. -/
theorem c10_cached_no_refetch_witness :
    parseStats "{}" mergeConcat readAllOk decodeEmpty getBoom [0, 1, 2] 99 m10
      = (finishNormalize decodeEmpty m10, m10, false) :=
  (c10_cached_no_refetch "{}" mergeConcat readAllOk decodeEmpty getBoom
    [0, 1, 2] 99 m10 "{}" rfl).1

end superhub5

namespace outputs

/-- Total number of value pairs held by a priority-grouped stream
list. -/
def sumValues (streams : List (String × List (String × String))) : Nat :=
  (streams.map fun s => s.2.length).sum

theorem streamAdd_sumValues (streams : List (String × List (String × String)))
    (p : String) (v : String × String) :
    sumValues (streamAdd streams p v) = sumValues streams + 1 := by
  induction streams with
  | nil => rfl
  | cons s rest ih =>
    by_cases h : s.1 = p
    · simp [streamAdd, h, sumValues, Nat.add_assoc, Nat.add_comm 1]
    · simp only [streamAdd]
      rw [if_neg h]
      simp [sumValues] at ih ⊢
      omega

theorem buildStreams_sumValues (parse : String → Option Int) (now : Int)
    (entries : List EventLogEntry) :
    sumValues (buildStreams parse now entries) = entries.length := by
  suffices h : ∀ acc, sumValues (entries.foldl
      (fun streams entry =>
        streamAdd streams entry.priority (tsNano parse now entry, entry.message))
      acc) = sumValues acc + entries.length by
    simpa [buildStreams, sumValues] using h []
  induction entries with
  | nil => intro acc; simp
  | cons e rest ih =>
    intro acc
    simp only [List.foldl_cons, List.length_cons]
    rw [ih, streamAdd_sumValues]
    omega

theorem insertVal_length (v : String × String) (l : List (String × String)) :
    (insertVal v l).length = l.length + 1 := by
  induction l with
  | nil => rfl
  | cons w ws ih =>
    cases h : goStringLt v.1 w.1
    · simp [insertVal, h, ih]
    · simp [insertVal, h]

theorem sortValues_length (l : List (String × String)) :
    (sortValues l).length = l.length := by
  induction l with
  | nil => rfl
  | cons v vs ih => simp [sortValues, insertVal_length, ih]

theorem totalValues_mkStreams (baseLabels : List (String × String))
    (streams : List (String × List (String × String))) :
    totalValues ⟨streams.map fun s => mkStream baseLabels s.1 s.2⟩
      = sumValues streams := by
  induction streams with
  | nil => rfl
  | cons s rest ih =>
    simp [totalValues, mkStream, sortValues_length, sumValues] at ih ⊢
    omega

theorem filterNew_eq_nil_of_seen (seen : List String)
    (entries : List EventLogEntry)
    (h : ∀ e ∈ entries, seen.contains (logKey e) = true) :
    filterNew seen entries = [] := by
  refine List.filter_eq_nil_iff.mpr fun e he => ?_
  have hc : logKey e ∈ seen := by simpa using h e he
  simp [hc]

theorem filterNew_after_success (seen : List String)
    (entries : List EventLogEntry) :
    filterNew (seen ++ (filterNew seen entries).map logKey) entries = [] := by
  refine List.filter_eq_nil_iff.mpr fun e he => ?_
  by_cases hc : seen.contains (logKey e) = true
  · have : logKey e ∈ seen := by simpa using hc
    simp [List.mem_append.mpr (Or.inl this)]
  · have hmem : e ∈ filterNew seen entries :=
      List.mem_filter.mpr ⟨he, by simp_all⟩
    have : logKey e ∈ (filterNew seen entries).map logKey :=
      List.mem_map_of_mem logKey hmem
    simp [List.mem_append.mpr (Or.inr this)]

/-- C4: the identity keys of the newly shipped entries are inserted
into the seen set only after the sink confirms a 2xx push; a transport
failure or a non-2xx status makes the cycle return an error with the
seen set unchanged. -/
theorem c4_seen_set_discipline (parse : String → Option Int) (now : Int)
    (entries : List EventLogEntry) (labels : List (String × String))
    (seen : List String) :
    (∀ msg : String, filterNew seen entries ≠ [] →
      (pushLogs parse now (.ok entries) (.error msg) labels seen).1
          = .error ("failed to push to loki: " ++ msg)
        ∧ (pushLogs parse now (.ok entries) (.error msg) labels seen).2.1
          = seen)
    ∧ (∀ st : Int, filterNew seen entries ≠ [] → st < 200 ∨ 300 ≤ st →
      (pushLogs parse now (.ok entries) (.ok st) labels seen).1
          = .error ("loki returned status " ++ toString st)
        ∧ (pushLogs parse now (.ok entries) (.ok st) labels seen).2.1 = seen)
    ∧ (∀ st : Int, 200 ≤ st → st < 300 →
      (pushLogs parse now (.ok entries) (.ok st) labels seen).2.1
        = seen ++ (filterNew seen entries).map logKey) := by
  refine ⟨fun msg hne => ?_, fun st hne hst => ?_, fun st h1 h2 => ?_⟩
  · simp [pushLogs, hne]
  · simp [pushLogs, hne, hst]
  · by_cases hne : filterNew seen entries = []
    · simp [pushLogs, hne]
    · have hcond : ¬(st < 200 ∨ 300 ≤ st) := by omega
      simp [pushLogs, hne, hcond]

/-- A parse function that fails on every timestamp. -/
def pNone : String → Option Int := fun _ => none

/-- A concrete log entry. -/
def e0 : EventLogEntry :=
  { priority := "critical", timestamp := "t0", message := "m0" }

/-- C4 witness: a failing push on one fresh entry returns an error and
leaves the seen set empty. -/
theorem c4_seen_set_discipline_witness :
    (pushLogs pNone 0 (.ok [e0]) (.error "x") [] []).1
        = .error ("failed to push to loki: " ++ "x")
      ∧ (pushLogs pNone 0 (.ok [e0]) (.error "x") [] []).2.1 = [] :=
  (c4_seen_set_discipline pNone 0 [e0] [] []).1 "x" (by decide)

/-- C5: if every fetched entry's identity key is already in the seen
set the cycle succeeds with no push; and after a confirmed 2xx cycle
over some entries, a second cycle over the same entries issues no push,
returns success, and adds nothing — while the first cycle pushed one
request carrying exactly the new entries. -/
theorem c5_dedup_two_cycles (parse : String → Option Int) (now now' : Int)
    (po po' : Except String Int) (st : Int)
    (labels : List (String × String)) (seen : List String)
    (entries : List EventLogEntry) :
    ((∀ e ∈ entries, seen.contains (logKey e) = true) →
      pushLogs parse now (.ok entries) po labels seen = (.ok (), seen, none))
    ∧ (200 ≤ st → st < 300 →
      (filterNew seen entries ≠ [] →
        ∃ req, (pushLogs parse now (.ok entries) (.ok st) labels seen).2.2
            = some req
          ∧ totalValues req = (filterNew seen entries).length)
      ∧ pushLogs parse now' (.ok entries) po' labels
          ((pushLogs parse now (.ok entries) (.ok st) labels seen).2.1)
          = (.ok (),
             (pushLogs parse now (.ok entries) (.ok st) labels seen).2.1,
             none)) := by
  constructor
  · intro hseen
    have hnil := filterNew_eq_nil_of_seen seen entries hseen
    simp [pushLogs, hnil]
  · intro h1 h2
    have hcond : ¬(st < 200 ∨ 300 ≤ st) := by omega
    constructor
    · intro hne
      refine ⟨⟨(buildStreams parse now (filterNew seen entries)).map fun s =>
          mkStream labels s.1 s.2⟩, ?_, ?_⟩
      · simp [pushLogs, hne, hcond]
      · rw [totalValues_mkStreams, buildStreams_sumValues]
    · by_cases hne : filterNew seen entries = []
      · have hseen1 : (pushLogs parse now (.ok entries) (.ok st) labels
            seen).2.1 = seen := by simp [pushLogs, hne]
        rw [hseen1]
        simp [pushLogs, hne]
      · have hseen1 : (pushLogs parse now (.ok entries) (.ok st) labels
            seen).2.1 = seen ++ (filterNew seen entries).map logKey := by
          simp [pushLogs, hne, hcond]
        rw [hseen1]
        have hnil := filterNew_after_success seen entries
        simp [pushLogs, hnil]

/-- C5 witness: one fresh entry, pushed once with status 204; the
second cycle over the same entry is a successful no-op. -/
theorem c5_dedup_two_cycles_witness :
    (∃ req, (pushLogs pNone 0 (.ok [e0]) (.ok 204) [] []).2.2 = some req
      ∧ totalValues req = (filterNew [] [e0]).length)
    ∧ pushLogs pNone 1 (.ok [e0]) (.ok 500) []
        ((pushLogs pNone 0 (.ok [e0]) (.ok 204) [] []).2.1)
        = (.ok (), (pushLogs pNone 0 (.ok [e0]) (.ok 204) [] []).2.1, none) := by
  have h := (c5_dedup_two_cycles pNone 0 1 (.ok 204) (.ok 500) 204 [] []
    [e0]).2 (by norm_num) (by norm_num)
  exact ⟨h.1 (by decide), h.2⟩

/-- `time.Parse(time.RFC3339, ·).UnixNano()` at two concrete valid
RFC3339 timestamps: 1970-01-02T00:00:00Z is 86400e9 ns after the epoch
(a 14-digit decimal), 2020-01-01T00:00:00Z is 1577836800e9 ns (19
digits); every other string fails to parse. -/
def rfc3339Ex : String → Option Int := fun s =>
  if s = "1970-01-02T00:00:00Z" then some 86400000000000
  else if s = "2020-01-01T00:00:00Z" then some 1577836800000000000
  else none

/-- An entry timestamped one day after the epoch. -/
def earlyEntry : EventLogEntry :=
  { priority := "error", timestamp := "1970-01-02T00:00:00Z",
    message := "early" }

/-- An entry timestamped in 2020. -/
def lateEntry : EventLogEntry :=
  { priority := "error", timestamp := "2020-01-01T00:00:00Z",
    message := "late" }

/-- C7, failing input: `PushLogs` sorts a stream's value pairs by
byte-wise comparison of the decimal timestamp strings, so with two
parseable timestamps of different digit counts the 2020 entry
(19 digits, leading '1') is ordered before the 1970 entry (14 digits,
leading '8') although its timestamp is numerically larger — the stream
is not ascending by timestamp, contradicting the sort's stated intent
("Sort values by timestamp (oldest first)"). -/
theorem c7_string_sort_misorders :
    pushLogs rfc3339Ex 0 (.ok [earlyEntry, lateEntry]) (.ok 204) [] []
      = (.ok (),
         ["1970-01-02T00:00:00Z|error|early", "2020-01-01T00:00:00Z|error|late"],
         some { streams := [{ stream := [("level", "error")],
                              values := [("1577836800000000000", "late"),
                                         ("86400000000000", "early")] }] })
    ∧ rfc3339Ex earlyEntry.timestamp = some 86400000000000
    ∧ rfc3339Ex lateEntry.timestamp = some 1577836800000000000
    ∧ (86400000000000 : Int) < 1577836800000000000 := by
  exact ⟨rfl, rfl, rfl, by norm_num⟩

/-- A log decoder accepting only the document `"{}"`, as the empty
event log. -/
def decodeLogEx : String → Except String (List superhub5.eventLogEntry) :=
  fun d => if d = "{}" then .ok [] else .error "bad"

/-- C8 counterexample: the modem's event-log fetch with HTTP status 500
and a decodable body succeeds and uses the response body — the
non-success status from the modem is not treated as an error. -/
theorem c8_counterexample :
    superhub5.fetchEventLog superhub5.readAllOk decodeLogEx
        (.ok ⟨500, "{}"⟩) = .ok []
    ∧ (300 : Int) ≤ 500 := by
  exact ⟨rfl, by norm_num⟩

/-- C8 (amended): a non-success status from the sink is surfaced as an
error with the seen set unchanged, but statuses received from the modem
are never inspected: `FetchEventLog` and the stats accumulation behave
identically under any rewriting of the response status codes. -/
theorem c8_status_checked_only_at_sink :
    (∀ (parse : String → Option Int) (now : Int)
        (entries : List EventLogEntry) (labels : List (String × String))
        (seen : List String) (st : Int),
      filterNew seen entries ≠ [] → st < 200 ∨ 300 ≤ st →
      (pushLogs parse now (.ok entries) (.ok st) labels seen).1
          = .error ("loki returned status " ++ toString st)
        ∧ (pushLogs parse now (.ok entries) (.ok st) labels seen).2.1 = seen)
    ∧ (∀ (Doc Body E : Type) (readAll : Body → Except E Doc)
        (decodeLog : Doc → Except E (List superhub5.eventLogEntry))
        (st st' : Int) (b : Body),
      superhub5.fetchEventLog readAll decodeLog (.ok ⟨st, b⟩)
        = superhub5.fetchEventLog readAll decodeLog (.ok ⟨st', b⟩))
    ∧ (∀ (Doc Body E : Type) (merge : Doc → Doc → Except E Doc)
        (readAll : Body → Except E Doc) (d : Doc)
        (results : List (HttpResult Body E)) (f : Int → Int),
      superhub5.accumulate merge readAll d
          (results.map fun r =>
            ⟨r.index, match r.out with
                      | .error err => .error err
                      | .ok res => .ok ⟨f res.statusCode, res.body⟩⟩)
        = superhub5.accumulate merge readAll d results) := by
  refine ⟨fun parse now entries labels seen st hne hst => ?_,
    fun Doc Body E readAll decodeLog st st' b => rfl,
    fun Doc Body E merge readAll d results f => ?_⟩
  · simp [pushLogs, hne, hst]
  · induction results generalizing d with
    | nil => rfl
    | cons r rest ih =>
      cases hq : r.out with
      | error e => simp [superhub5.accumulate, hq]
      | ok res =>
        cases hr : readAll res.body with
        | error e => simp [superhub5.accumulate, hq, hr]
        | ok stats =>
          cases hmrg : merge d stats with
          | error e => simp [superhub5.accumulate, hq, hr, hmrg]
          | ok merged => simp [superhub5.accumulate, hq, hr, hmrg, ih]

/-- C8 witness: the sink part of the amended theorem at status 500 on
one fresh entry, plus the modem-side status-independence at concrete
types. -/
theorem c8_status_checked_only_at_sink_witness :
    ((pushLogs pNone 0 (.ok [e0]) (.ok 500) [] []).1
        = .error ("loki returned status " ++ toString (500 : Int))
      ∧ (pushLogs pNone 0 (.ok [e0]) (.ok 500) [] []).2.1 = [])
    ∧ superhub5.fetchEventLog superhub5.readAllOk decodeLogEx (.ok ⟨500, "{}"⟩)
        = superhub5.fetchEventLog superhub5.readAllOk decodeLogEx (.ok ⟨200, "{}"⟩) := by
  have h := c8_status_checked_only_at_sink
  exact ⟨h.1 pNone 0 [e0] [] [] 500 (by decide) (by norm_num),
    h.2.1 String String String superhub5.readAllOk decodeLogEx 500 200 "{}"⟩

end outputs
